import Mathlib

/-!
Verification of the `crypto_box` composition layer
(`src/crypto_box/src/lib.rs`): X25519 Diffie-Hellman key agreement,
HSalsa20 key whitening, and the XSalsa20Poly1305 AEAD adapter.

The elliptic-curve scalar multiplication, the HSalsa20 function, the
stream-cipher keystream and the MAC are external primitives (separate
crates outside this repository); following the spec's capability-based
design they are modelled as fields of a `Prims` structure, with only the
length guarantees their Rust types carry.  Bytes are natural numbers and
byte strings are lists.
-/

namespace CryptoBox

/-- Byte strings: bytes modelled as natural numbers. -/
abbrev Bytes := List Nat

/-- External primitive capabilities used by the composition layer:
X25519 scalar multiplication and base-point multiplication
(`x25519_dalek`), the HSalsa20 whitening function (`salsa20::hsalsa20`),
the XSalsa20 keystream (byte at a given offset for a key and nonce), and
the Poly1305 MAC.  The length fields record the fixed output sizes
guaranteed by their Rust types (`GenericArray`). -/
structure Prims where
  scalarMult : Bytes → Bytes → Bytes
  basePointMult : Bytes → Bytes
  hsalsa20 : Bytes → Bytes → Bytes
  keystream : Bytes → Bytes → Nat → Nat
  mac : Bytes → Bytes → Bytes
  scalarMult_len : ∀ s p, (scalarMult s p).length = 32
  hsalsa20_len : ∀ x y, (hsalsa20 x y).length = 32
  mac_len : ∀ k m, (mac k m).length = 16

/-- `crypto_box` secret key: wraps an `x25519_dalek::StaticSecret`,
modelled by its 32 byte scalar (src lines 159-161). -/
structure SecretKey where
  bytes : Bytes

/-- `impl From<[u8; KEY_SIZE]> for SecretKey` (src lines 183-187):
total, performs no validation. -/
def SecretKey.fromBytes (b : Bytes) : SecretKey := ⟨b⟩

/-- `SecretKey::public_key` (src lines 172-175): deterministic
base-point multiplication. -/
def SecretKey.publicKey (P : Prims) (sk : SecretKey) : Bytes :=
  P.basePointMult sk.bytes

/-- The XSalsa20Poly1305 cipher instance: holds the 32-byte symmetric
key. -/
structure XSalsa20Poly1305 where
  key : Bytes

/-- `XSalsa20Poly1305::new` from a 32-byte key. -/
def XSalsa20Poly1305.ofKey (key : Bytes) : XSalsa20Poly1305 := ⟨key⟩

/-- XOR a byte string with the keystream bytes `f i, f (i+1), ...`. -/
def xorKeystream (f : Nat → Nat) : Nat → Bytes → Bytes
  | _, [] => []
  | i, b :: bs => (b ^^^ f i) :: xorKeystream f (i + 1) bs

/-- Modelled from the spec: the MAC key is derived from the same
keystream generation as the cipher (the first 32 keystream bytes of the
XSalsa20 keystream for this key and nonce); the `xsalsa20poly1305`
crate of this repository is not under `src/`. -/
def macKeyOf (P : Prims) (key nonce : Bytes) : Bytes :=
  (List.range 32).map (P.keystream key nonce)

/-- Modelled from the spec: the cipher XORs the buffer with the
keystream (offset past the 32 MAC-key bytes). -/
def cipherOf (P : Prims) (key nonce : Bytes) (buffer : Bytes) : Bytes :=
  xorKeystream (fun i => P.keystream key nonce (32 + i)) 0 buffer

/-- Modelled from the spec: the authenticated message covers the
associated data, the ciphertext, and their lengths. -/
def encodeAuth (associated_data ciphertext : Bytes) : Bytes :=
  associated_data.length :: associated_data ++ ciphertext.length :: ciphertext

/-- Modelled from the spec: the authentication tag over the ciphertext
and associated data, computed with the MAC keyed from the keystream. -/
def tagOf (P : Prims) (key nonce associated_data ciphertext : Bytes) : Bytes :=
  P.mac (macKeyOf P key nonce) (encodeAuth associated_data ciphertext)

/-- The growable byte buffer capability (`aead::Buffer`): data plus a
capacity bound; `extend` fails when the capacity would be exceeded. -/
structure Buffer where
  data : Bytes
  cap : Nat

/-- `Buffer::extend_from_slice`: append, failing on insufficient
capacity. -/
def Buffer.extend (b : Buffer) (s : Bytes) : Option Buffer :=
  if b.data.length + s.length ≤ b.cap then some ⟨b.data ++ s, b.cap⟩ else none

/-- Modelled from the spec: detached encryption ciphers the fixed-size
buffer in place at the same length and returns the tag separately. -/
def XSalsa20Poly1305.encrypt_in_place_detached (P : Prims)
    (c : XSalsa20Poly1305) (nonce associated_data buffer : Bytes) :
    Bytes × Bytes :=
  let ciphertext := cipherOf P c.key nonce buffer
  (ciphertext, tagOf P c.key nonce associated_data ciphertext)

/-- Modelled from the spec: growable-buffer encryption ciphers the
buffer in place then appends the 16-byte tag, failing only when the
buffer lacks capacity for the tag. -/
def XSalsa20Poly1305.encrypt_in_place (P : Prims) (c : XSalsa20Poly1305)
    (nonce associated_data : Bytes) (buffer : Buffer) :
    Option Unit × Buffer :=
  let r := XSalsa20Poly1305.encrypt_in_place_detached P c nonce associated_data buffer.data
  match Buffer.extend ⟨r.1, buffer.cap⟩ r.2 with
  | some b2 => (some (), b2)
  | none => (none, ⟨r.1, buffer.cap⟩)

/-- Modelled from the spec: detached decryption recomputes the tag over
the buffer and associated data, compares it with the supplied tag, and
only on a match deciphers in place at the same length; on a mismatch it
returns an error and leaves the buffer unmodified. -/
def XSalsa20Poly1305.decrypt_in_place_detached (P : Prims)
    (c : XSalsa20Poly1305) (nonce associated_data buffer tag : Bytes) :
    Option Unit × Bytes :=
  if tagOf P c.key nonce associated_data buffer = tag then
    (some (), cipherOf P c.key nonce buffer)
  else
    (none, buffer)

/-- Modelled from the spec: growable-buffer decryption splits the
trailing 16-byte tag off the buffer (failing if the buffer is shorter
than a tag), verifies it, and on success deciphers and truncates;
verification failure leaves the buffer unchanged. -/
def XSalsa20Poly1305.decrypt_in_place (P : Prims) (c : XSalsa20Poly1305)
    (nonce associated_data : Bytes) (buffer : Buffer) :
    Option Unit × Buffer :=
  if buffer.data.length < 16 then (none, buffer)
  else
    let tag_pos := buffer.data.length - 16
    let msg := buffer.data.take tag_pos
    let tag := buffer.data.drop tag_pos
    match XSalsa20Poly1305.decrypt_in_place_detached P c nonce associated_data msg tag with
    | (some _, pt) => (some (), ⟨pt, buffer.cap⟩)
    | (none, _) => (none, buffer)

/-- `SalsaBox` (src line 214): wraps an `XSalsa20Poly1305` instance. -/
structure SalsaBox where
  cipher : XSalsa20Poly1305

/-- All-zero 16-byte HSalsa20 input (`GenericArray::default()`). -/
def zeroInput : Bytes := List.replicate 16 0

/-- `SalsaBox::new` (src lines 219-229): X25519 Diffie-Hellman between
the secret and public key, then HSalsa20 whitening of the shared secret
with the all-zero input. -/
def SalsaBox.new (P : Prims) (public_key : Bytes) (secret_key : SecretKey) :
    SalsaBox :=
  let shared_secret := P.scalarMult secret_key.bytes public_key
  let key := P.hsalsa20 shared_secret zeroInput
  ⟨XSalsa20Poly1305.ofKey key⟩

/-- `SalsaBox::encrypt_in_place` (src lines 237-244): delegates to the
inner cipher. -/
def SalsaBox.encrypt_in_place (P : Prims) (b : SalsaBox)
    (nonce associated_data : Bytes) (buffer : Buffer) :
    Option Unit × Buffer :=
  XSalsa20Poly1305.encrypt_in_place P b.cipher nonce associated_data buffer

/-- `SalsaBox::encrypt_in_place_detached` (src lines 246-254). -/
def SalsaBox.encrypt_in_place_detached (P : Prims) (b : SalsaBox)
    (nonce associated_data buffer : Bytes) : Bytes × Bytes :=
  XSalsa20Poly1305.encrypt_in_place_detached P b.cipher nonce associated_data buffer

/-- `SalsaBox::decrypt_in_place` (src lines 256-263). -/
def SalsaBox.decrypt_in_place (P : Prims) (b : SalsaBox)
    (nonce associated_data : Bytes) (buffer : Buffer) :
    Option Unit × Buffer :=
  XSalsa20Poly1305.decrypt_in_place P b.cipher nonce associated_data buffer

/-- `SalsaBox::decrypt_in_place_detached` (src lines 265-274). -/
def SalsaBox.decrypt_in_place_detached (P : Prims) (b : SalsaBox)
    (nonce associated_data buffer tag : Bytes) : Option Unit × Bytes :=
  XSalsa20Poly1305.decrypt_in_place_detached P b.cipher nonce associated_data buffer tag

/-- Whole-buffer `Aead::encrypt`: runs in-place encryption on a fresh
growable buffer holding the plaintext (capacity for plaintext plus
tag, as a heap vector provides). -/
def SalsaBox.encrypt (P : Prims) (b : SalsaBox)
    (nonce associated_data plaintext : Bytes) : Option Bytes :=
  match SalsaBox.encrypt_in_place P b nonce associated_data
      ⟨plaintext, plaintext.length + 16⟩ with
  | (some _, buf) => some buf.data
  | (none, _) => none

/-- Whole-buffer `Aead::decrypt`: runs in-place decryption on a fresh
buffer holding the ciphertext. -/
def SalsaBox.decrypt (P : Prims) (b : SalsaBox)
    (nonce associated_data ciphertext : Bytes) : Option Bytes :=
  match SalsaBox.decrypt_in_place P b nonce associated_data
      ⟨ciphertext, ciphertext.length⟩ with
  | (some _, buf) => some buf.data
  | (none, _) => none

/-- Flip bit `j` of byte `i` of a byte string. -/
def flipBit (bs : Bytes) (i j : Nat) : Bytes :=
  bs.set i (bs.getD i 0 ^^^ 2 ^ j)

/- ### Basic lemmas about the keystream XOR and the tag encoding -/

theorem xorKeystream_length (f : Nat → Nat) :
    ∀ (i : Nat) (bs : Bytes), (xorKeystream f i bs).length = bs.length := by
  intro i bs
  induction bs generalizing i with
  | nil => rfl
  | cons b tl ih => simp [xorKeystream, ih]

theorem xorKeystream_involutive (f : Nat → Nat) :
    ∀ (i : Nat) (bs : Bytes), xorKeystream f i (xorKeystream f i bs) = bs := by
  intro i bs
  induction bs generalizing i with
  | nil => rfl
  | cons b tl ih =>
    simp [xorKeystream, ih, Nat.xor_assoc, Nat.xor_self, Nat.xor_zero]

theorem cipherOf_length (P : Prims) (key nonce buffer : Bytes) :
    (cipherOf P key nonce buffer).length = buffer.length :=
  xorKeystream_length _ 0 buffer

theorem cipherOf_cipherOf (P : Prims) (key nonce buffer : Bytes) :
    cipherOf P key nonce (cipherOf P key nonce buffer) = buffer :=
  xorKeystream_involutive _ 0 buffer

theorem tagOf_length (P : Prims) (key nonce associated_data ciphertext : Bytes) :
    (tagOf P key nonce associated_data ciphertext).length = 16 :=
  P.mac_len _ _

theorem encodeAuth_inj (a1 c1 a2 c2 : Bytes)
    (h : encodeAuth a1 c1 = encodeAuth a2 c2) : a1 = a2 ∧ c1 = c2 := by
  unfold encodeAuth at h
  injection h with hlen happ
  have h2 := List.append_inj happ hlen
  obtain ⟨ha, hc⟩ := h2
  injection hc with _ hc2
  exact ⟨ha, hc2⟩

/- ### Characterization of the whole-buffer operations -/

theorem encrypt_eq (P : Prims) (b : SalsaBox)
    (nonce associated_data plaintext : Bytes) :
    SalsaBox.encrypt P b nonce associated_data plaintext =
      some (cipherOf P b.cipher.key nonce plaintext ++
        tagOf P b.cipher.key nonce associated_data
          (cipherOf P b.cipher.key nonce plaintext)) := by
  have hle : (cipherOf P b.cipher.key nonce plaintext).length +
      (tagOf P b.cipher.key nonce associated_data
        (cipherOf P b.cipher.key nonce plaintext)).length ≤
      plaintext.length + 16 := by
    rw [cipherOf_length, tagOf_length]
  simp [SalsaBox.encrypt, SalsaBox.encrypt_in_place,
    XSalsa20Poly1305.encrypt_in_place, XSalsa20Poly1305.encrypt_in_place_detached,
    Buffer.extend, hle]

theorem encrypt_in_place_ok (P : Prims) (b : SalsaBox)
    (nonce associated_data : Bytes) (buffer : Buffer)
    (hcap : buffer.data.length + 16 ≤ buffer.cap) :
    SalsaBox.encrypt_in_place P b nonce associated_data buffer =
      (some (), ⟨cipherOf P b.cipher.key nonce buffer.data ++
        tagOf P b.cipher.key nonce associated_data
          (cipherOf P b.cipher.key nonce buffer.data), buffer.cap⟩) := by
  have hle : (cipherOf P b.cipher.key nonce buffer.data).length +
      (tagOf P b.cipher.key nonce associated_data
        (cipherOf P b.cipher.key nonce buffer.data)).length ≤ buffer.cap := by
    rw [cipherOf_length, tagOf_length]
    exact hcap
  simp [SalsaBox.encrypt_in_place, XSalsa20Poly1305.encrypt_in_place,
    XSalsa20Poly1305.encrypt_in_place_detached, Buffer.extend, hle]

theorem decrypt_in_place_split (P : Prims) (b : SalsaBox)
    (nonce associated_data ct tag : Bytes) (cap : Nat)
    (hlen : tag.length = 16) :
    SalsaBox.decrypt_in_place P b nonce associated_data ⟨ct ++ tag, cap⟩ =
      if tagOf P b.cipher.key nonce associated_data ct = tag then
        (some (), ⟨cipherOf P b.cipher.key nonce ct, cap⟩)
      else (none, ⟨ct ++ tag, cap⟩) := by
  have h16 : ct.length + tag.length - 16 = ct.length := by omega
  have hnlt : ¬ ct.length + tag.length < 16 := by omega
  have htake : List.take (ct.length + tag.length - 16) (ct ++ tag) = ct := by
    rw [h16]
    exact List.take_left ct tag
  have hdrop : List.drop (ct.length + tag.length - 16) (ct ++ tag) = tag := by
    rw [h16]
    exact List.drop_left ct tag
  by_cases hm : tagOf P b.cipher.key nonce associated_data ct = tag
  · simp [SalsaBox.decrypt_in_place, XSalsa20Poly1305.decrypt_in_place,
      XSalsa20Poly1305.decrypt_in_place_detached, hnlt, htake, hdrop, hm]
  · simp [SalsaBox.decrypt_in_place, XSalsa20Poly1305.decrypt_in_place,
      XSalsa20Poly1305.decrypt_in_place_detached, hnlt, htake, hdrop, hm]

theorem decrypt_ct_tag (P : Prims) (b : SalsaBox)
    (nonce associated_data ct tag : Bytes)
    (hlen : tag.length = 16)
    (hm : tagOf P b.cipher.key nonce associated_data ct = tag) :
    SalsaBox.decrypt P b nonce associated_data (ct ++ tag) =
      some (cipherOf P b.cipher.key nonce ct) := by
  simp [SalsaBox.decrypt, decrypt_in_place_split P b nonce associated_data ct tag _ hlen, hm]

theorem decrypt_ct_tag_bad (P : Prims) (b : SalsaBox)
    (nonce associated_data ct tag : Bytes)
    (hlen : tag.length = 16)
    (hm : tagOf P b.cipher.key nonce associated_data ct ≠ tag) :
    SalsaBox.decrypt P b nonce associated_data (ct ++ tag) = none := by
  simp [SalsaBox.decrypt, decrypt_in_place_split P b nonce associated_data ct tag _ hlen, hm]

theorem getD_set_self :
    ∀ (bs : Bytes) (i x : Nat), i < bs.length → (bs.set i x).getD i 0 = x := by
  intro bs
  induction bs with
  | nil => intro i x h; simp at h
  | cons b tl ih =>
    intro i x h
    cases i with
    | zero => rfl
    | succ n =>
      have hn : n < tl.length := by simpa using h
      simpa using ih n x hn

theorem flipBit_ne (bs : Bytes) (i j : Nat) (hi : i < bs.length) :
    flipBit bs i j ≠ bs := by
  intro h
  have hset : (bs.set i (bs.getD i 0 ^^^ 2 ^ j)).getD i 0 = bs.getD i 0 ^^^ 2 ^ j :=
    getD_set_self bs i _ hi
  rw [flipBit] at h
  rw [h] at hset
  have hzero : 2 ^ j = 0 := by
    have h2 : bs.getD i 0 ^^^ bs.getD i 0 = bs.getD i 0 ^^^ (bs.getD i 0 ^^^ 2 ^ j) :=
      congrArg (fun t => bs.getD i 0 ^^^ t) hset
    rwa [Nat.xor_self, ← Nat.xor_assoc, Nat.xor_self, Nat.zero_xor, eq_comm] at h2
  exact absurd hzero (Nat.pos_iff_ne_zero.mp (pow_pos (by norm_num) j))

/- ### Claim theorems -/

/-- C1: Round trip — for every pair of key pairs, every 24-byte nonce,
every plaintext and associated data, decrypting with the Box built from
(A's secret, B's public) the ciphertext produced by the Box built from
(B's secret, A's public) under the same nonce and associated data
returns exactly the plaintext.  The Diffie-Hellman symmetry of the
external X25519 primitive is the hypothesis `hsym`. -/
theorem C1_round_trip (P : Prims) (a_sec b_sec : SecretKey)
    (nonce plaintext associated_data : Bytes)
    (hA : a_sec.bytes.length = 32) (hB : b_sec.bytes.length = 32)
    (hN : nonce.length = 24)
    (hsym : P.scalarMult b_sec.bytes (SecretKey.publicKey P a_sec) =
      P.scalarMult a_sec.bytes (SecretKey.publicKey P b_sec)) :
    ∃ c, SalsaBox.encrypt P (SalsaBox.new P (SecretKey.publicKey P a_sec) b_sec)
        nonce associated_data plaintext = some c ∧
      SalsaBox.decrypt P (SalsaBox.new P (SecretKey.publicKey P b_sec) a_sec)
        nonce associated_data c = some plaintext := by
  have hbox : SalsaBox.new P (SecretKey.publicKey P a_sec) b_sec =
      SalsaBox.new P (SecretKey.publicKey P b_sec) a_sec := by
    simp only [SalsaBox.new]
    rw [hsym]
  refine ⟨_, encrypt_eq P (SalsaBox.new P (SecretKey.publicKey P a_sec) b_sec)
    nonce associated_data plaintext, ?_⟩
  rw [hbox]
  rw [decrypt_ct_tag P (SalsaBox.new P (SecretKey.publicKey P b_sec) a_sec)
    nonce associated_data _ _ (tagOf_length P _ nonce associated_data _) rfl]
  rw [cipherOf_cipherOf]

/-- C2: Diffie-Hellman symmetry — the Boxes built from reciprocal key
pairs are equal (hence derive bit-identical 32-byte session keys and
behave identically on every encrypt/decrypt call), given the symmetry
`hsym` of the external X25519 primitive. -/
theorem C2_dh_symmetry (P : Prims) (a_sec b_sec : SecretKey)
    (hA : a_sec.bytes.length = 32) (hB : b_sec.bytes.length = 32)
    (hsym : P.scalarMult a_sec.bytes (SecretKey.publicKey P b_sec) =
      P.scalarMult b_sec.bytes (SecretKey.publicKey P a_sec)) :
    (SalsaBox.new P (SecretKey.publicKey P b_sec) a_sec).cipher.key =
      (SalsaBox.new P (SecretKey.publicKey P a_sec) b_sec).cipher.key ∧
    (SalsaBox.new P (SecretKey.publicKey P b_sec) a_sec).cipher.key.length = 32 ∧
    SalsaBox.new P (SecretKey.publicKey P b_sec) a_sec =
      SalsaBox.new P (SecretKey.publicKey P a_sec) b_sec := by
  have hbox : SalsaBox.new P (SecretKey.publicKey P b_sec) a_sec =
      SalsaBox.new P (SecretKey.publicKey P a_sec) b_sec := by
    simp only [SalsaBox.new]
    rw [hsym]
  exact ⟨by rw [hbox], P.hsalsa20_len _ _, hbox⟩

/-- C3: Session-key derivation — the Box's session key is HSalsa20 of
the raw Diffie-Hellman shared secret with the constant all-zero 16-byte
input, and it is a function of the shared secret alone: any two
constructions whose shared secrets coincide yield the same Box (no
nonce or message enters the construction). -/
theorem C3_session_key (P : Prims) (sk sk2 : SecretKey) (pk pk2 : Bytes)
    (hshared : P.scalarMult sk.bytes pk = P.scalarMult sk2.bytes pk2) :
    (SalsaBox.new P pk sk).cipher.key =
      P.hsalsa20 (P.scalarMult sk.bytes pk) (List.replicate 16 0) ∧
    SalsaBox.new P pk sk = SalsaBox.new P pk2 sk2 := by
  constructor
  · rfl
  · simp only [SalsaBox.new]
    rw [hshared]

/-- C4: Tamper detection with no plaintext release — whenever the
supplied tag differs from the tag recomputed over the ciphertext and
associated data, both decrypt variants return an error and leave the
buffer holding the (unmodified) ciphertext, releasing no plaintext; in
particular flipping any single bit of the tag of a validly produced
ciphertext makes detached decryption fail, and a modified ciphertext
whose recomputed tag differs from the original tag is rejected. -/
theorem C4_tamper (P : Prims) (b : SalsaBox)
    (nonce associated_data plaintext ct tag ct2 : Bytes) (i j cap : Nat)
    (htag : tag.length = 16) (hi : i < 16) (hj : j < 8)
    (h1 : tagOf P b.cipher.key nonce associated_data ct ≠ tag)
    (h2 : tagOf P b.cipher.key nonce associated_data ct2 ≠
      (SalsaBox.encrypt_in_place_detached P b nonce associated_data plaintext).2) :
    SalsaBox.decrypt_in_place_detached P b nonce associated_data ct tag = (none, ct) ∧
    SalsaBox.decrypt_in_place P b nonce associated_data ⟨ct ++ tag, cap⟩ =
      (none, ⟨ct ++ tag, cap⟩) ∧
    SalsaBox.decrypt P b nonce associated_data (ct ++ tag) = none ∧
    SalsaBox.decrypt_in_place_detached P b nonce associated_data
      (SalsaBox.encrypt_in_place_detached P b nonce associated_data plaintext).1
      (flipBit (SalsaBox.encrypt_in_place_detached P b nonce associated_data plaintext).2 i j) =
      (none, (SalsaBox.encrypt_in_place_detached P b nonce associated_data plaintext).1) ∧
    SalsaBox.decrypt_in_place_detached P b nonce associated_data ct2
      (SalsaBox.encrypt_in_place_detached P b nonce associated_data plaintext).2 =
      (none, ct2) := by
  refine ⟨?_, ?_, ?_, ?_, ?_⟩
  · simp [SalsaBox.decrypt_in_place_detached,
      XSalsa20Poly1305.decrypt_in_place_detached, h1]
  · rw [decrypt_in_place_split P b nonce associated_data ct tag cap htag]
    simp [h1]
  · exact decrypt_ct_tag_bad P b nonce associated_data ct tag htag h1
  · have hne : tagOf P b.cipher.key nonce associated_data
        (cipherOf P b.cipher.key nonce plaintext) ≠
        flipBit (tagOf P b.cipher.key nonce associated_data
          (cipherOf P b.cipher.key nonce plaintext)) i j := by
      intro h
      refine flipBit_ne _ i j ?_ h.symm
      rw [tagOf_length]
      exact hi
    simp only [SalsaBox.encrypt_in_place_detached,
      XSalsa20Poly1305.encrypt_in_place_detached]
    simp [SalsaBox.decrypt_in_place_detached,
      XSalsa20Poly1305.decrypt_in_place_detached, hne]
  · simp only [SalsaBox.encrypt_in_place_detached,
      XSalsa20Poly1305.encrypt_in_place_detached] at h2 ⊢
    simp [SalsaBox.decrypt_in_place_detached,
      XSalsa20Poly1305.decrypt_in_place_detached, h2]

/-- C5: Totality — key and Box construction from 32 bytes always
succeed (they are total functions, no error path), and encryption never
fails for any nonce, plaintext and associated data (empty or not)
provided the in-place buffer has capacity for the 16-byte tag. -/
theorem C5_totality (P : Prims) (key_bytes pk nonce associated_data plaintext : Bytes)
    (buffer : Buffer) (hkey : key_bytes.length = 32)
    (hcap : buffer.data.length + 16 ≤ buffer.cap) :
    (SalsaBox.encrypt_in_place P (SalsaBox.new P pk (SecretKey.fromBytes key_bytes))
        nonce associated_data buffer).1 = some () ∧
    ∃ c, SalsaBox.encrypt P (SalsaBox.new P pk (SecretKey.fromBytes key_bytes))
        nonce associated_data plaintext = some c := by
  constructor
  · rw [encrypt_in_place_ok P _ nonce associated_data buffer hcap]
  · exact ⟨_, encrypt_eq P _ nonce associated_data plaintext⟩

/-- C6: Associated-data binding — encrypting under `D1` succeeds, and
decrypting the unchanged ciphertext-with-tag under `D2` fails, whenever
the MAC separates the two authenticated encodings (hypothesis `hmac`);
moreover the authenticated encoding is injective in the pair
(associated data, ciphertext) — the empty associated data is
authenticated as an empty sequence with its length, so no substitution
changes the MAC input unnoticed. -/
theorem C6_aad_binding (P : Prims) (b : SalsaBox) (nonce plaintext D1 D2 : Bytes)
    (hne : D1 ≠ D2)
    (hmac : P.mac (macKeyOf P b.cipher.key nonce)
        (encodeAuth D2 (cipherOf P b.cipher.key nonce plaintext)) ≠
      P.mac (macKeyOf P b.cipher.key nonce)
        (encodeAuth D1 (cipherOf P b.cipher.key nonce plaintext))) :
    (∃ c, SalsaBox.encrypt P b nonce D1 plaintext = some c ∧
      SalsaBox.decrypt P b nonce D2 c = none) ∧
    (∀ a1 c1 a2 c2 : Bytes, encodeAuth a1 c1 = encodeAuth a2 c2 → a1 = a2 ∧ c1 = c2) := by
  constructor
  · refine ⟨_, encrypt_eq P b nonce D1 plaintext, ?_⟩
    exact decrypt_ct_tag_bad P b nonce D2 _ _
      (tagOf_length P _ nonce D1 _) hmac
  · exact fun a1 c1 a2 c2 h => encodeAuth_inj a1 c1 a2 c2 h

/-- C7: Length invariant — whole-buffer encryption always succeeds and
its output is exactly 16 bytes longer than the plaintext; the empty
plaintext yields a 16-byte (tag-only) ciphertext whose decryption
returns the empty plaintext. -/
theorem C7_length_invariant (P : Prims) (b : SalsaBox)
    (nonce associated_data plaintext : Bytes) :
    (∃ c, SalsaBox.encrypt P b nonce associated_data plaintext = some c ∧
      c.length = plaintext.length + 16) ∧
    (∃ c0, SalsaBox.encrypt P b nonce associated_data [] = some c0 ∧
      c0.length = 16 ∧ SalsaBox.decrypt P b nonce associated_data c0 = some []) := by
  constructor
  · refine ⟨_, encrypt_eq P b nonce associated_data plaintext, ?_⟩
    simp [List.length_append, cipherOf_length, tagOf_length]
  · refine ⟨_, encrypt_eq P b nonce associated_data [], ?_, ?_⟩
    · simp [List.length_append, cipherOf_length, tagOf_length]
    · rw [decrypt_ct_tag P b nonce associated_data
        (cipherOf P b.cipher.key nonce []) _
        (tagOf_length P _ nonce associated_data _) rfl]
      rw [cipherOf_cipherOf]

/-- C8: Detached-decrypt atomicity and frame — for a 16-byte tag,
detached decryption succeeds exactly when the supplied tag matches the
tag recomputed over the buffer and associated data; on success the
buffer is deciphered at unchanged length, and on failure it is returned
unmodified with an error. -/
theorem C8_detached_frame (P : Prims) (b : SalsaBox)
    (nonce associated_data buffer tag : Bytes) (htag : tag.length = 16) :
    (tagOf P b.cipher.key nonce associated_data buffer = tag →
      SalsaBox.decrypt_in_place_detached P b nonce associated_data buffer tag =
        (some (), cipherOf P b.cipher.key nonce buffer) ∧
      (SalsaBox.decrypt_in_place_detached P b nonce associated_data buffer tag).2.length =
        buffer.length) ∧
    (tagOf P b.cipher.key nonce associated_data buffer ≠ tag →
      SalsaBox.decrypt_in_place_detached P b nonce associated_data buffer tag =
        (none, buffer)) := by
  constructor
  · intro h
    refine ⟨?_, ?_⟩
    · simp [SalsaBox.decrypt_in_place_detached,
        XSalsa20Poly1305.decrypt_in_place_detached, h]
    · simp [SalsaBox.decrypt_in_place_detached,
        XSalsa20Poly1305.decrypt_in_place_detached, h, cipherOf_length]
  · intro h
    simp [SalsaBox.decrypt_in_place_detached,
      XSalsa20Poly1305.decrypt_in_place_detached, h]

/-- C9: Refinement — the `SalsaBox` built by `Box::new(pk, sk)` is
observationally identical to the `XSalsa20Poly1305` instance keyed with
`hsalsa20(x25519(sk, pk), 0)`: all four AEAD operations delegate and
agree on every nonce, associated data, buffer and tag. -/
theorem C9_refinement (P : Prims) (sk : SecretKey)
    (pk nonce associated_data slice tag : Bytes) (buffer : Buffer) :
    SalsaBox.encrypt_in_place P (SalsaBox.new P pk sk) nonce associated_data buffer =
      XSalsa20Poly1305.encrypt_in_place P
        (XSalsa20Poly1305.ofKey (P.hsalsa20 (P.scalarMult sk.bytes pk) zeroInput))
        nonce associated_data buffer ∧
    SalsaBox.encrypt_in_place_detached P (SalsaBox.new P pk sk) nonce associated_data slice =
      XSalsa20Poly1305.encrypt_in_place_detached P
        (XSalsa20Poly1305.ofKey (P.hsalsa20 (P.scalarMult sk.bytes pk) zeroInput))
        nonce associated_data slice ∧
    SalsaBox.decrypt_in_place P (SalsaBox.new P pk sk) nonce associated_data buffer =
      XSalsa20Poly1305.decrypt_in_place P
        (XSalsa20Poly1305.ofKey (P.hsalsa20 (P.scalarMult sk.bytes pk) zeroInput))
        nonce associated_data buffer ∧
    SalsaBox.decrypt_in_place_detached P (SalsaBox.new P pk sk) nonce associated_data slice tag =
      XSalsa20Poly1305.decrypt_in_place_detached P
        (XSalsa20Poly1305.ofKey (P.hsalsa20 (P.scalarMult sk.bytes pk) zeroInput))
        nonce associated_data slice tag :=
  ⟨rfl, rfl, rfl, rfl⟩

/- ### Concrete instantiation of the external primitives for witnesses -/

/-- A concrete, executable instantiation of the primitive capabilities
(pointwise modular arithmetic), used to evaluate the theorems on
concrete inputs; its scalar multiplication is symmetric under swapping
the scalar and the point. -/
def toyPrims : Prims where
  scalarMult s p := (List.range 32).map (fun i => s.getD i 0 * p.getD i 0 % 256)
  basePointMult s := s
  hsalsa20 x y := (List.range 32).map (fun i => (x.getD i 0 + y.getD i 0) % 256)
  keystream k n i := (k.getD (i % 32) 0 + n.getD (i % 24) 0 + i) % 256
  mac k m := (k.sum + m.sum + m.length) % 256 :: List.replicate 15 0
  scalarMult_len := fun s p => by simp
  hsalsa20_len := fun x y => by simp
  mac_len := fun k m => by simp

/-- Concrete secret key for party A. -/
def aKeyW : SecretKey := ⟨List.range 32⟩

/-- Concrete secret key for party B. -/
def bKeyW : SecretKey := ⟨List.replicate 32 3⟩

/-- Concrete 24-byte nonce. -/
def nonceW : Bytes := List.replicate 24 7

/-- Concrete Box with a fixed session key. -/
def boxW : SalsaBox := ⟨XSalsa20Poly1305.ofKey (List.replicate 32 9)⟩

/-- C1 witness: round trip at the concrete primitives, keys, nonce,
plaintext and associated data. -/
theorem C1_round_trip_witness :
    ∃ c, SalsaBox.encrypt toyPrims
        (SalsaBox.new toyPrims (SecretKey.publicKey toyPrims aKeyW) bKeyW)
        nonceW [5, 6] [42, 43, 44] = some c ∧
      SalsaBox.decrypt toyPrims
        (SalsaBox.new toyPrims (SecretKey.publicKey toyPrims bKeyW) aKeyW)
        nonceW [5, 6] c = some [42, 43, 44] :=
  C1_round_trip toyPrims aKeyW bKeyW nonceW [42, 43, 44] [5, 6]
    (by decide) (by decide) (by decide) (by decide)

/-- C2 witness: reciprocal Boxes coincide at the concrete primitives
and keys. -/
theorem C2_dh_symmetry_witness :
    (SalsaBox.new toyPrims (SecretKey.publicKey toyPrims bKeyW) aKeyW).cipher.key =
      (SalsaBox.new toyPrims (SecretKey.publicKey toyPrims aKeyW) bKeyW).cipher.key ∧
    (SalsaBox.new toyPrims (SecretKey.publicKey toyPrims bKeyW) aKeyW).cipher.key.length = 32 ∧
    SalsaBox.new toyPrims (SecretKey.publicKey toyPrims bKeyW) aKeyW =
      SalsaBox.new toyPrims (SecretKey.publicKey toyPrims aKeyW) bKeyW :=
  C2_dh_symmetry toyPrims aKeyW bKeyW (by decide) (by decide) (by decide)

/-- C3 witness: the session key at two concrete constructions with the
same shared secret. -/
theorem C3_session_key_witness :
    (SalsaBox.new toyPrims [3] (SecretKey.fromBytes [2])).cipher.key =
      toyPrims.hsalsa20 (toyPrims.scalarMult (SecretKey.fromBytes [2]).bytes [3])
        (List.replicate 16 0) ∧
    SalsaBox.new toyPrims [3] (SecretKey.fromBytes [2]) =
      SalsaBox.new toyPrims [2] (SecretKey.fromBytes [3]) :=
  C3_session_key toyPrims (SecretKey.fromBytes [2]) (SecretKey.fromBytes [3])
    [3] [2] (by decide)

/-- C4 witness: tamper detection at concrete inputs — a mismatched
tag, a mismatched attached buffer, a flipped tag bit, and a modified
ciphertext are all rejected without releasing plaintext. -/
theorem C4_tamper_witness :
    SalsaBox.decrypt_in_place_detached toyPrims boxW nonceW [2] [10, 20]
      (List.replicate 16 7) = (none, [10, 20]) ∧
    SalsaBox.decrypt_in_place toyPrims boxW nonceW [2]
      ⟨[10, 20] ++ List.replicate 16 7, 40⟩ =
      (none, ⟨[10, 20] ++ List.replicate 16 7, 40⟩) ∧
    SalsaBox.decrypt toyPrims boxW nonceW [2] ([10, 20] ++ List.replicate 16 7) = none ∧
    SalsaBox.decrypt_in_place_detached toyPrims boxW nonceW [2]
      (SalsaBox.encrypt_in_place_detached toyPrims boxW nonceW [2] [42]).1
      (flipBit (SalsaBox.encrypt_in_place_detached toyPrims boxW nonceW [2] [42]).2 1 2) =
      (none, (SalsaBox.encrypt_in_place_detached toyPrims boxW nonceW [2] [42]).1) ∧
    SalsaBox.decrypt_in_place_detached toyPrims boxW nonceW [2] [9, 9]
      (SalsaBox.encrypt_in_place_detached toyPrims boxW nonceW [2] [42]).2 =
      (none, [9, 9]) :=
  C4_tamper toyPrims boxW nonceW [2] [42] [10, 20] (List.replicate 16 7) [9, 9] 1 2 40
    (by decide) (by decide) (by decide) (by decide) (by decide)

/-- C5 witness: in-place encryption succeeds on a buffer with enough
capacity and whole-buffer encryption succeeds, with a non-empty
associated data. -/
theorem C5_totality_witness :
    (SalsaBox.encrypt_in_place toyPrims
        (SalsaBox.new toyPrims (List.replicate 32 4)
          (SecretKey.fromBytes (List.replicate 32 1)))
        nonceW [9, 9] ⟨[1, 2, 3], 30⟩).1 = some () ∧
    ∃ c, SalsaBox.encrypt toyPrims
        (SalsaBox.new toyPrims (List.replicate 32 4)
          (SecretKey.fromBytes (List.replicate 32 1)))
        nonceW [9, 9] [5] = some c :=
  C5_totality toyPrims (List.replicate 32 1) (List.replicate 32 4) nonceW [9, 9] [5]
    ⟨[1, 2, 3], 30⟩ (by decide) (by decide)

/-- C6 witness: at the concrete primitives, encryption under the empty
associated data succeeds and decryption of the unchanged ciphertext
under a different associated data fails. -/
theorem C6_aad_binding_witness :
    (∃ c, SalsaBox.encrypt toyPrims boxW nonceW [] [1] = some c ∧
      SalsaBox.decrypt toyPrims boxW nonceW [7] c = none) ∧
    (∀ a1 c1 a2 c2 : Bytes, encodeAuth a1 c1 = encodeAuth a2 c2 → a1 = a2 ∧ c1 = c2) :=
  C6_aad_binding toyPrims boxW nonceW [1] [] [7] (by decide) (by decide)

/-- C8 witness: detached decryption at the concrete primitives — a
matching tag succeeds at unchanged length, a mismatched tag returns an
error with the buffer unmodified. -/
theorem C8_detached_frame_witness :
    (SalsaBox.decrypt_in_place_detached toyPrims boxW nonceW [1] [10, 11]
        (tagOf toyPrims boxW.cipher.key nonceW [1] [10, 11]) =
      (some (), cipherOf toyPrims boxW.cipher.key nonceW [10, 11]) ∧
      (SalsaBox.decrypt_in_place_detached toyPrims boxW nonceW [1] [10, 11]
        (tagOf toyPrims boxW.cipher.key nonceW [1] [10, 11])).2.length =
        ([10, 11] : Bytes).length) ∧
    SalsaBox.decrypt_in_place_detached toyPrims boxW nonceW [1] [10, 11]
      (List.replicate 16 7) = (none, [10, 11]) :=
  ⟨(C8_detached_frame toyPrims boxW nonceW [1] [10, 11]
      (tagOf toyPrims boxW.cipher.key nonceW [1] [10, 11])
      (tagOf_length toyPrims boxW.cipher.key nonceW [1] [10, 11])).1 rfl,
   (C8_detached_frame toyPrims boxW nonceW [1] [10, 11]
      (List.replicate 16 7) (by decide)).2 (by decide)⟩
